import Mathlib

/-
Verification of the shared-memory transport of boinc-app-api-rs
(src/shmem.rs): single-slot mailboxes (MSG_CHANNEL), the fixed
eight-mailbox shared region (SHARED_MEM), the trait-level operations
(AppChannel) and the byte-level effect of the mapped backend's
constructor (MmapAppChannel::new).

Bytes are modelled as natural numbers (the Rust code stores them as
c_char and only ever compares against 0 and copies them, so signedness
is irrelevant).  A mailbox buffer is modelled as a total function from
index to byte value; only indices below MSG_CHANNEL_SIZE are ever read
or written by the operations.
-/

set_option maxHeartbeats 1000000
set_option maxRecDepth 100000

namespace BoincShmem

/-- Size in bytes of one mailbox buffer (MSG_CHANNEL_SIZE in shmem.rs). -/
def MSG_CHANNEL_SIZE : Nat := 1024

/-- A single mailbox: the 1024-byte buffer of MSG_CHANNEL, modelled as an
index-to-byte function.  Byte 0 is the occupancy flag. -/
structure MSG_CHANNEL where
  buf : Nat → Nat

/-- Pointwise update of a byte buffer: the effect of the Rust statement
buf[i] = v. -/
def setByte (b : Nat → Nat) (i v : Nat) : Nat → Nat :=
  fun j => if j = i then v else b j

/-- Write a list of bytes into the buffer at consecutive indices starting
at s (the effect of a loop doing buf[s + k] = w[k]). -/
def writeBytes : (Nat → Nat) → Nat → List Nat → (Nat → Nat)
  | b, _, [] => b
  | b, s, a :: rest => writeBytes (setByte b s a) (s + 1) rest

/-- The sequence of bytes the force_push loop actually stores: it copies
elements in order and stops right after storing a zero byte (the loop
body does buf[i+1] = c; if c == 0 \x7b break; \x7d). -/
def writtenSeq : List Nat → List Nat
  | [] => []
  | a :: rest => if a = 0 then [0] else a :: writtenSeq rest

/-- MSG_CHANNEL::is_empty — true iff the occupancy byte (index 0) is 0. -/
def MSG_CHANNEL.is_empty (m : MSG_CHANNEL) : Bool :=
  decide (m.buf 0 = 0)

/-- MSG_CHANNEL::clear — set the occupancy byte to 0. -/
def MSG_CHANNEL.clear (m : MSG_CHANNEL) : MSG_CHANNEL :=
  ⟨setByte m.buf 0 0⟩

/-- MSG_CHANNEL::peek — if empty return none; otherwise copy
buf[1 .. MSG_CHANNEL_SIZE-2) (a copy of length 1021), force a zero at
index MSG_CHANNEL_SIZE-4 = 1020 of the copy, and return the bytes of the
copy up to (excluding) the first zero (the CStr::from_ptr scan, which is
guaranteed to terminate inside the copy because of the forced zero). -/
def MSG_CHANNEL.peek (m : MSG_CHANNEL) : Option (List Nat) :=
  if m.is_empty then none
  else
    some ((((List.range (MSG_CHANNEL_SIZE - 3)).map
      (fun i => if i = MSG_CHANNEL_SIZE - 4 then 0 else m.buf (i + 1)))).takeWhile
        (fun a => a != 0))

/-- MSG_CHANNEL::pop — peek, then clear; returns the new state and the
peeked value. -/
def MSG_CHANNEL.pop (m : MSG_CHANNEL) : MSG_CHANNEL × Option (List Nat) :=
  (m.clear, m.peek)

/-- MSG_CHANNEL::force_push — set the occupancy byte to 1, copy the first
min(len, MSG_CHANNEL_SIZE-2) payload bytes to buf[1..], stopping right
after a zero byte, and finally zero the guard byte buf[MSG_CHANNEL_SIZE-1]. -/
def MSG_CHANNEL.force_push (m : MSG_CHANNEL) (msg : List Nat) : MSG_CHANNEL :=
  ⟨setByte
    (writeBytes (setByte m.buf 0 1) 1
      (writtenSeq (msg.take (min msg.length (MSG_CHANNEL_SIZE - 2)))))
    (MSG_CHANNEL_SIZE - 1) 0⟩

/-- Result type of a push, mirroring futures::AsyncSink. -/
inductive AsyncSink (T : Type) where
  | Ready : AsyncSink T
  | NotReady : T → AsyncSink T
deriving DecidableEq

/-- MSG_CHANNEL::push — if occupied, reject and return the payload
unchanged; otherwise force_push it and report Ready. -/
def MSG_CHANNEL.push (m : MSG_CHANNEL) (msg : List Nat) :
    MSG_CHANNEL × AsyncSink (List Nat) :=
  if !m.is_empty then (m, AsyncSink.NotReady msg)
  else (m.force_push msg, AsyncSink.Ready)

/-- Default (zero-initialized) mailbox, as produced by MSG_CHANNEL::default. -/
def zeroChannel : MSG_CHANNEL :=
  ⟨fun _ => 0⟩

/-- The closed set of channel identifiers (MsgChannel in the models crate),
one per field of SHARED_MEM, in the struct's declaration order. -/
inductive MsgChannel where
  | ProcessControlRequest
  | ProcessControlReply
  | GraphicsRequest
  | GraphicsReply
  | Heartbeat
  | AppStatus
  | TrickleUp
  | TrickleDown
deriving DecidableEq

/-- SHARED_MEM — exactly eight mailboxes in a fixed repr(C) order. -/
structure SHARED_MEM where
  process_control_request : MSG_CHANNEL
  process_control_reply : MSG_CHANNEL
  graphics_request : MSG_CHANNEL
  graphics_reply : MSG_CHANNEL
  heartbeat : MSG_CHANNEL
  app_status : MSG_CHANNEL
  trickle_up : MSG_CHANNEL
  trickle_down : MSG_CHANNEL

/-- SHARED_MEM::get_channel — total dispatch from identifier to mailbox. -/
def SHARED_MEM.get_channel (s : SHARED_MEM) : MsgChannel → MSG_CHANNEL
  | .ProcessControlRequest => s.process_control_request
  | .ProcessControlReply => s.process_control_reply
  | .GraphicsRequest => s.graphics_request
  | .GraphicsReply => s.graphics_reply
  | .Heartbeat => s.heartbeat
  | .AppStatus => s.app_status
  | .TrickleUp => s.trickle_up
  | .TrickleDown => s.trickle_down

/-- Write-back through SHARED_MEM::get_channel_mut: replace one mailbox. -/
def SHARED_MEM.set_channel (s : SHARED_MEM) (c : MsgChannel) (b : MSG_CHANNEL) :
    SHARED_MEM :=
  match c with
  | .ProcessControlRequest => { s with process_control_request := b }
  | .ProcessControlReply => { s with process_control_reply := b }
  | .GraphicsRequest => { s with graphics_request := b }
  | .GraphicsReply => { s with graphics_reply := b }
  | .Heartbeat => { s with heartbeat := b }
  | .AppStatus => { s with app_status := b }
  | .TrickleUp => { s with trickle_up := b }
  | .TrickleDown => { s with trickle_down := b }

/-- Default SHARED_MEM: all eight mailboxes zero-initialized. -/
def zeroRegion : SHARED_MEM :=
  ⟨zeroChannel, zeroChannel, zeroChannel, zeroChannel,
   zeroChannel, zeroChannel, zeroChannel, zeroChannel⟩

namespace AppChannel

/-
Trait-level operations of AppChannel.  Each one runs inside a single
transaction acquiring exclusive access to the SHARED_MEM; since no other
writer can interleave, its effect is a pure function on the region state,
modelled here as state-passing (new state, returned value).
-/

/-- AppChannel::is_empty — whether channel c is currently empty. -/
def is_empty (s : SHARED_MEM) (c : MsgChannel) : Bool :=
  (s.get_channel c).is_empty

/-- AppChannel::peek — read-only peek of channel c. -/
def peek (s : SHARED_MEM) (c : MsgChannel) : Option (List Nat) :=
  (s.get_channel c).peek

/-- AppChannel::receive — pop channel c inside one transaction. -/
def receive (s : SHARED_MEM) (c : MsgChannel) :
    SHARED_MEM × Option (List Nat) :=
  ((s.set_channel c ((s.get_channel c).pop.1)), (s.get_channel c).pop.2)

/-- AppChannel::clear — clear channel c inside one transaction. -/
def clear (s : SHARED_MEM) (c : MsgChannel) : SHARED_MEM :=
  s.set_channel c ((s.get_channel c).clear)

/-- AppChannel::push routed to an explicit channel (the body shared by
push and push_unchecked once the message has been encoded to
a channel identifier and raw bytes). -/
def push (s : SHARED_MEM) (c : MsgChannel) (v : List Nat) :
    SHARED_MEM × AsyncSink (List Nat) :=
  ((s.set_channel c ((s.get_channel c).push v).1), ((s.get_channel c).push v).2)

/-- AppChannel::force routed to an explicit channel (shared body of force
and force_unchecked). -/
def force (s : SHARED_MEM) (c : MsgChannel) (v : List Nat) : SHARED_MEM :=
  s.set_channel c ((s.get_channel c).force_push v)

/-- Shared body of pull_control and pull_status: inside one transaction,
scan the given ordered channel list, calling pop on each mailbox in turn,
and return the first popped message (with its channel) or none when the
whole list was empty.  The concrete lists (ControlMsgChannel::enum_iter
and StatusMsgChannel::enum_iter mapped into MsgChannel) live in the
external models crate; the scan itself is the code of shmem.rs. -/
def pullGroup : SHARED_MEM → List MsgChannel → SHARED_MEM × Option (MsgChannel × List Nat)
  | s, [] => (s, none)
  | s, c :: rest =>
    match (s.get_channel c).pop.2 with
    | some v => (s.set_channel c ((s.get_channel c).pop.1), some (c, v))
    | none => pullGroup (s.set_channel c ((s.get_channel c).pop.1)) rest

/-- Modelled from the spec: AppChannel::pull_control scans the control
group's channels "in that fixed order and returns the first occupied one";
the order itself (ControlMsgChannel::enum_iter, an ordered subset of the
channel identifiers) is owned by the external models crate and is
therefore a parameter here. -/
def pull_control (order : List MsgChannel) (s : SHARED_MEM) :
    SHARED_MEM × Option (MsgChannel × List Nat) :=
  pullGroup s order

/-- Modelled from the spec: AppChannel::pull_status, same scan for the
status group's externally owned order (StatusMsgChannel::enum_iter). -/
def pull_status (order : List MsgChannel) (s : SHARED_MEM) :
    SHARED_MEM × Option (MsgChannel × List Nat) :=
  pullGroup s order

/-- Modelled from the spec: the reference pull-and-decode behavior.  The
external decoder turns (channel id, raw bytes) into a typed message or a
decode failure; a mailbox that is occupied but fails to decode is
surfaced as a distinct protocol-violation error carrying the malformed
channel and bytes — never silently dropped.  Sum.inl is the normal
result, Sum.inr the signalled violation. -/
def pullDecoded {Msg : Type} (dec : MsgChannel → List Nat → Option Msg)
    (order : List MsgChannel) (s : SHARED_MEM) :
    SHARED_MEM × (Option (MsgChannel × Msg) ⊕ (MsgChannel × List Nat)) :=
  match pullGroup s order with
  | (s2, none) => (s2, Sum.inl none)
  | (s2, some (c, v)) =>
    match dec c v with
    | some msg => (s2, Sum.inl (some (c, msg)))
    | none => (s2, Sum.inr (c, v))

end AppChannel

/-- Size in bytes of SHARED_MEM: eight mailboxes of 1024 bytes each,
repr(C) with no padding (the fields are byte arrays). -/
def SHARED_MEM_SIZE : Nat := 8 * MSG_CHANNEL_SIZE

/-- Index of a channel's mailbox inside the repr(C) layout of SHARED_MEM. -/
def channelIndex : MsgChannel → Nat
  | .ProcessControlRequest => 0
  | .ProcessControlReply => 1
  | .GraphicsRequest => 2
  | .GraphicsReply => 3
  | .Heartbeat => 4
  | .AppStatus => 5
  | .TrickleUp => 6
  | .TrickleDown => 7

/-- Decode a flat byte string (the mapped file's contents) as a
SHARED_MEM under the repr(C) layout: channel k's mailbox occupies bytes
[1024 k, 1024 (k+1)); bytes past the end of the list read as 0. -/
def regionOfBytes (bytes : List Nat) : SHARED_MEM :=
  let box : Nat → MSG_CHANNEL :=
    fun k => ⟨fun i => bytes.getD (MSG_CHANNEL_SIZE * k + i) 0⟩
  ⟨box 0, box 1, box 2, box 3, box 4, box 5, box 6, box 7⟩

/-- Byte-level effect of MmapAppChannel::new on the backing file: the
file is opened read+write with create (an absent file becomes an empty
one, position 0); if its size is below SHARED_MEM_SIZE, write_all stores
SHARED_MEM_SIZE zero bytes starting at offset 0 (overwriting what is
there and extending the file); otherwise nothing is written. -/
def mmapNewFileBytes (file : Option (List Nat)) : List Nat :=
  let f0 := match file with
    | none => []
    | some content => content
  if f0.length < SHARED_MEM_SIZE then
    List.replicate SHARED_MEM_SIZE 0 ++ f0.drop SHARED_MEM_SIZE
  else f0

/-- Number of bytes MmapAppChannel::new writes into the backing file: the
write_all call stores SHARED_MEM_SIZE bytes when the file is smaller than
SHARED_MEM_SIZE, and the write is skipped entirely otherwise. -/
def mmapNewWriteCount (file : Option (List Nat)) : Nat :=
  let f0 := match file with
    | none => []
    | some content => content
  if f0.length < SHARED_MEM_SIZE then SHARED_MEM_SIZE else 0

/-
Concrete mailbox and region states used to exercise the operations.
-/

/-- An empty mailbox (occupancy byte 0) whose payload region holds a
residual nonzero byte 66 at buffer index 2. -/
def residue66 : MSG_CHANNEL :=
  ⟨fun i => if i = 2 then 66 else 0⟩

/-- An empty mailbox (occupancy byte 0) whose payload region holds a
residual nonzero byte 67 at buffer index 2. -/
def residue67 : MSG_CHANNEL :=
  ⟨fun i => if i = 2 then 67 else 0⟩

/-- An occupied mailbox holding the zero-length payload. -/
def occupiedBlank : MSG_CHANNEL :=
  ⟨fun i => if i = 0 then 1 else 0⟩

/-- A mailbox every byte of which is 65. -/
def allSixtyFive : MSG_CHANNEL :=
  ⟨fun _ => 65⟩

/-- A region in which exactly the graphics-request and trickle-down
mailboxes are occupied. -/
def demoRegion : SHARED_MEM :=
  (zeroRegion.set_channel MsgChannel.GraphicsRequest occupiedBlank).set_channel
    MsgChannel.TrickleDown occupiedBlank

/-
Helper lemmas about the byte-buffer primitives.
-/

theorem setByte_self (b : Nat → Nat) (i v : Nat) : setByte b i v i = v := by
  simp [setByte]

theorem setByte_other (b : Nat → Nat) (i v j : Nat) (h : j ≠ i) :
    setByte b i v j = b j := by
  simp [setByte, h]

theorem writeBytes_low : ∀ (w : List Nat) (b : Nat → Nat) (s j : Nat),
    j < s → writeBytes b s w j = b j := by
  intro w
  induction w with
  | nil => intro b s j _; rfl
  | cons a rest ih =>
    intro b s j hj
    show writeBytes (setByte b s a) (s + 1) rest j = b j
    rw [ih _ _ _ (Nat.lt_succ_of_lt hj), setByte_other _ _ _ _ (Nat.ne_of_lt hj)]

theorem writeBytes_high : ∀ (w : List Nat) (b : Nat → Nat) (s j : Nat),
    s + w.length ≤ j → writeBytes b s w j = b j := by
  intro w
  induction w with
  | nil => intro b s j _; rfl
  | cons a rest ih =>
    intro b s j hj
    show writeBytes (setByte b s a) (s + 1) rest j = b j
    have hlen : s + 1 + rest.length ≤ j := by
      simpa [List.length_cons, Nat.add_comm, Nat.add_left_comm] using hj
    have hs : s < j := by
      have := Nat.le_trans (Nat.le_add_right (s + 1) rest.length) hlen
      omega
    rw [ih _ _ _ hlen, setByte_other _ _ _ _ (Nat.ne_of_gt hs)]

theorem writeBytes_mid : ∀ (w : List Nat) (b : Nat → Nat) (s k : Nat),
    k < w.length → writeBytes b s w (s + k) = w.getD k 0 := by
  intro w
  induction w with
  | nil => intro b s k hk; simp at hk
  | cons a rest ih =>
    intro b s k hk
    show writeBytes (setByte b s a) (s + 1) rest (s + k) = (a :: rest).getD k 0
    cases k with
    | zero =>
      rw [writeBytes_low _ _ _ _ (by omega), Nat.add_zero, setByte_self,
        List.getD_cons_zero]
    | succ k =>
      have hk2 : k < rest.length := by simpa using hk
      have harg : s + (k + 1) = (s + 1) + k := by omega
      rw [harg, ih _ _ _ hk2, List.getD_cons_succ]

theorem writtenSeq_of_no_zero : ∀ l : List Nat, (∀ a ∈ l, a ≠ 0) →
    writtenSeq l = l := by
  intro l
  induction l with
  | nil => intro _; rfl
  | cons a rest ih =>
    intro h
    have ha : a ≠ 0 := h a (List.mem_cons_self a rest)
    simp only [writtenSeq, if_neg ha]
    rw [ih (fun x hx => h x (List.mem_cons_of_mem a hx))]

theorem getD_zero_replicate : ∀ (n i : Nat),
    (List.replicate n 0).getD i 0 = 0 := by
  intro n
  induction n with
  | zero => intro i; rfl
  | succ n ih =>
    intro i
    cases i with
    | zero => rfl
    | succ i =>
      rw [List.replicate_succ, List.getD_cons_succ]
      exact ih i

theorem getD_replicate_of_lt {a d : Nat} : ∀ (n i : Nat), i < n →
    (List.replicate n a).getD i d = a := by
  intro n
  induction n with
  | zero => intro i hi; omega
  | succ n ih =>
    intro i hi
    cases i with
    | zero => rfl
    | succ i =>
      have : i < n := by omega
      simpa [List.replicate_succ] using ih i this

theorem takeWhile_append_of_all {p : Nat → Bool} : ∀ (l1 l2 : List Nat),
    (∀ a ∈ l1, p a = true) →
    (l1 ++ l2).takeWhile p = l1 ++ l2.takeWhile p := by
  intro l1
  induction l1 with
  | nil => intro l2 _; rfl
  | cons a rest ih =>
    intro l2 h
    have ha : p a = true := h a (List.mem_cons_self a rest)
    simp only [List.cons_append, List.takeWhile_cons, if_pos ha]
    rw [ih l2 (fun x hx => h x (List.mem_cons_of_mem a hx))]

theorem takeWhile_append_length_le {p : Nat → Bool} : ∀ (l1 l2 : List Nat),
    ((l1 ++ l2).takeWhile p).length ≤ l1.length + (l2.takeWhile p).length := by
  intro l1
  induction l1 with
  | nil => intro l2; simp
  | cons a rest ih =>
    intro l2
    simp only [List.cons_append, List.takeWhile_cons]
    by_cases ha : p a = true
    · simpa [ha, Nat.succ_le_succ_iff, Nat.add_right_comm] using
        Nat.succ_le_succ (ih l2)
    · simp [ha]

/-
Helper lemmas about a single mailbox.
-/

theorem channel_ext {m1 m2 : MSG_CHANNEL} (h : ∀ j, m1.buf j = m2.buf j) :
    m1 = m2 := by
  cases m1
  cases m2
  exact congrArg MSG_CHANNEL.mk (funext h)

theorem is_empty_true_iff (m : MSG_CHANNEL) :
    m.is_empty = true ↔ m.buf 0 = 0 := by
  simp [MSG_CHANNEL.is_empty]

theorem is_empty_false_iff (m : MSG_CHANNEL) :
    m.is_empty = false ↔ m.buf 0 ≠ 0 := by
  simp [MSG_CHANNEL.is_empty]

theorem clear_is_empty (m : MSG_CHANNEL) : m.clear.is_empty = true := by
  rw [is_empty_true_iff]
  show setByte m.buf 0 0 0 = 0
  exact setByte_self _ _ _

theorem clear_of_empty {m : MSG_CHANNEL} (h : m.is_empty = true) :
    m.clear = m := by
  apply channel_ext
  intro j
  by_cases hj : j = 0
  · subst hj
    show setByte m.buf 0 0 0 = m.buf 0
    rw [(is_empty_true_iff m).mp h]
    exact setByte_self _ _ _
  · show setByte m.buf 0 0 j = m.buf j
    exact setByte_other _ _ _ _ hj

theorem force_push_buf_zero (m : MSG_CHANNEL) (msg : List Nat) :
    (m.force_push msg).buf 0 = 1 := by
  show setByte
      (writeBytes (setByte m.buf 0 1) 1
        (writtenSeq (msg.take (min msg.length (MSG_CHANNEL_SIZE - 2)))))
      (MSG_CHANNEL_SIZE - 1) 0 0 = 1
  rw [setByte_other _ _ _ _ (by simp [MSG_CHANNEL_SIZE]),
    writeBytes_low _ _ _ _ Nat.zero_lt_one, setByte_self]

theorem force_push_occupied (m : MSG_CHANNEL) (msg : List Nat) :
    (m.force_push msg).is_empty = false := by
  rw [is_empty_false_iff, force_push_buf_zero]
  exact Nat.one_ne_zero

theorem peek_of_empty {m : MSG_CHANNEL} (h : m.is_empty = true) :
    m.peek = none := by
  simp [MSG_CHANNEL.peek, h]

theorem occupied_of_peek_some {m : MSG_CHANNEL} {v : List Nat}
    (h : m.peek = some v) : m.is_empty = false := by
  by_contra hne
  have ht : m.is_empty = true := by
    cases hval : m.is_empty
    · exact absurd hval hne
    · rfl
  rw [peek_of_empty ht] at h
  exact Option.noConfusion h

theorem peek_of_occupied {m : MSG_CHANNEL} (h : m.is_empty = false) :
    m.peek = some ((((List.range (MSG_CHANNEL_SIZE - 3)).map
      (fun i => if i = MSG_CHANNEL_SIZE - 4 then 0 else m.buf (i + 1)))).takeWhile
        (fun a => a != 0)) := by
  simp [MSG_CHANNEL.peek, h]

/-
Helper lemmas about channel dispatch on the shared region.
-/

theorem get_set_self (s : SHARED_MEM) (c : MsgChannel) (b : MSG_CHANNEL) :
    (s.set_channel c b).get_channel c = b := by
  cases c <;> rfl

theorem get_set_other (s : SHARED_MEM) (c c' : MsgChannel) (b : MSG_CHANNEL)
    (h : c' ≠ c) : (s.set_channel c b).get_channel c' = s.get_channel c' := by
  cases c <;> cases c' <;> first | rfl | exact absurd rfl h

theorem set_get_self (s : SHARED_MEM) (c : MsgChannel) :
    s.set_channel c (s.get_channel c) = s := by
  cases c <;> rfl

theorem set_set_self (s : SHARED_MEM) (c : MsgChannel) (b1 b2 : MSG_CHANNEL) :
    (s.set_channel c b1).set_channel c b2 = s.set_channel c b2 := by
  cases c <;> rfl

theorem regionOfBytes_buf_zero (bytes : List Nat) (c : MsgChannel) :
    ((regionOfBytes bytes).get_channel c).buf 0 =
      bytes.getD (MSG_CHANNEL_SIZE * channelIndex c + 0) 0 := by
  cases c <;> rfl

/-
Helper lemmas about the multiplexed scan.
-/

theorem pullGroup_nil (s : SHARED_MEM) : AppChannel.pullGroup s [] = (s, none) :=
  rfl

theorem pullGroup_cons_empty (s : SHARED_MEM) (c : MsgChannel)
    (rest : List MsgChannel) (h : (s.get_channel c).is_empty = true) :
    AppChannel.pullGroup s (c :: rest) = AppChannel.pullGroup s rest := by
  have hpop : (s.get_channel c).pop.2 = none := peek_of_empty h
  have hclear : (s.get_channel c).pop.1 = s.get_channel c := clear_of_empty h
  show (match (s.get_channel c).pop.2 with
    | some v => (s.set_channel c ((s.get_channel c).pop.1), some (c, v))
    | none =>
      AppChannel.pullGroup (s.set_channel c ((s.get_channel c).pop.1)) rest) =
    AppChannel.pullGroup s rest
  rw [hpop, hclear, set_get_self]

theorem pullGroup_cons_occ (s : SHARED_MEM) (c : MsgChannel)
    (rest : List MsgChannel) (v : List Nat)
    (h : (s.get_channel c).peek = some v) :
    AppChannel.pullGroup s (c :: rest) =
      (s.set_channel c ((s.get_channel c).clear), some (c, v)) := by
  have hpop : (s.get_channel c).pop.2 = some v := h
  show (match (s.get_channel c).pop.2 with
    | some v => (s.set_channel c ((s.get_channel c).pop.1), some (c, v))
    | none =>
      AppChannel.pullGroup (s.set_channel c ((s.get_channel c).pop.1)) rest) =
    (s.set_channel c ((s.get_channel c).clear), some (c, v))
  rw [hpop]
  rfl

theorem pullGroup_skip_front (s : SHARED_MEM) :
    ∀ (pre l : List MsgChannel),
    (∀ c ∈ pre, (s.get_channel c).is_empty = true) →
    AppChannel.pullGroup s (pre ++ l) = AppChannel.pullGroup s l := by
  intro pre
  induction pre with
  | nil => intro l _; rfl
  | cons c rest ih =>
    intro l h
    rw [List.cons_append,
      pullGroup_cons_empty s c (rest ++ l) (h c (List.mem_cons_self c rest))]
    exact ih l (fun x hx => h x (List.mem_cons_of_mem c hx))

/-
Claim theorems.
-/

/-- Claim C9: clear is idempotent — clearing a mailbox twice leaves it in
the same state as clearing it once, after clear is_empty is true, and the
trait-level clear on a region channel is idempotent as well. -/
theorem clear_idempotent (m : MSG_CHANNEL) (s : SHARED_MEM) (c : MsgChannel) :
    m.clear.clear = m.clear ∧ m.clear.is_empty = true ∧
    AppChannel.clear (AppChannel.clear s c) c = AppChannel.clear s c := by
  refine ⟨clear_of_empty (clear_is_empty m), clear_is_empty m, ?_⟩
  show (s.set_channel c ((s.get_channel c).clear)).set_channel c
      (((s.set_channel c ((s.get_channel c).clear)).get_channel c).clear) =
    s.set_channel c ((s.get_channel c).clear)
  rw [get_set_self, clear_of_empty (clear_is_empty _), set_set_self]

/-- Claim C4: push on an occupied mailbox returns the payload unchanged as
NotReady and leaves the mailbox state (hence peek) unchanged; on a mailbox
that starts empty, the first of two sequential pushes is accepted (Ready)
and the second is rejected with the second payload unchanged. -/
theorem push_rejects_when_occupied (m m0 : MSG_CHANNEL) (p p1 p2 : List Nat)
    (hocc : m.is_empty = false) (hemp : m0.is_empty = true) :
    m.push p = (m, AsyncSink.NotReady p) ∧
    (m.push p).1.peek = m.peek ∧
    (m0.push p1).2 = AsyncSink.Ready ∧
    (m0.push p1).1.push p2 = ((m0.push p1).1, AsyncSink.NotReady p2) := by
  have h1 : m.push p = (m, AsyncSink.NotReady p) := by
    simp [MSG_CHANNEL.push, hocc]
  have h2 : (m0.push p1).1 = m0.force_push p1 := by
    simp [MSG_CHANNEL.push, hemp]
  refine ⟨h1, by rw [h1], by simp [MSG_CHANNEL.push, hemp], ?_⟩
  rw [h2]
  simp [MSG_CHANNEL.push, force_push_occupied]

/-- Witness for C4 at concrete mailboxes: a rejected push on an occupied
mailbox and an accepted-then-rejected pair on an initially empty one. -/
theorem push_rejects_when_occupied_witness :
    occupiedBlank.push [7] = (occupiedBlank, AsyncSink.NotReady [7]) ∧
    (occupiedBlank.push [7]).1.peek = occupiedBlank.peek ∧
    (zeroChannel.push [8]).2 = AsyncSink.Ready ∧
    (zeroChannel.push [8]).1.push [9] =
      ((zeroChannel.push [8]).1, AsyncSink.NotReady [9]) :=
  push_rejects_when_occupied occupiedBlank zeroChannel [7] [8] [9]
    (by decide) (by decide)

/-- Claim C5: pop leaves the mailbox empty and equals peek followed by
clear, returning what peek read; on an already-empty mailbox it returns
nothing; the trait-level receive does the same on its channel. -/
theorem pop_receive_empties_mailbox (m me : MSG_CHANNEL) (s ss : SHARED_MEM)
    (c cs : MsgChannel) (hme : me.is_empty = true)
    (hss : AppChannel.is_empty ss cs = true) :
    m.pop.1.is_empty = true ∧
    m.pop = (m.clear, m.peek) ∧
    me.pop.2 = none ∧
    AppChannel.is_empty (AppChannel.receive s c).1 c = true ∧
    (AppChannel.receive s c).2 = (s.get_channel c).peek ∧
    (AppChannel.receive ss cs).2 = none := by
  refine ⟨clear_is_empty m, rfl, peek_of_empty hme, ?_, rfl, peek_of_empty hss⟩
  show ((s.set_channel c ((s.get_channel c).pop.1)).get_channel c).is_empty = true
  rw [get_set_self]
  exact clear_is_empty _

/-- Witness for C5 at concrete states: an occupied mailbox and region
channel, and an already-empty mailbox and region channel. -/
theorem pop_receive_empties_mailbox_witness :
    allSixtyFive.pop.1.is_empty = true ∧
    allSixtyFive.pop = (allSixtyFive.clear, allSixtyFive.peek) ∧
    zeroChannel.pop.2 = none ∧
    AppChannel.is_empty
      (AppChannel.receive demoRegion MsgChannel.GraphicsRequest).1
      MsgChannel.GraphicsRequest = true ∧
    (AppChannel.receive demoRegion MsgChannel.GraphicsRequest).2 =
      (demoRegion.get_channel MsgChannel.GraphicsRequest).peek ∧
    (AppChannel.receive zeroRegion MsgChannel.Heartbeat).2 = none :=
  pop_receive_empties_mailbox allSixtyFive zeroChannel demoRegion zeroRegion
    MsgChannel.GraphicsRequest MsgChannel.Heartbeat (by decide) (by decide)

/-- Claim C1 is refuted by the code: the payload [65] is shorter than the
effective capacity (1020) and contains no NUL, and residue66 has occupancy
byte 0 (an empty mailbox) with a residual byte 66 in its payload region;
push is accepted, but receive returns [65, 66], not the original payload
[65] — force_push writes no terminating NUL after the payload, so the
residual byte of the supposedly ignored payload region leaks into the
received message. -/
theorem push_receive_residue_leak :
    ([65] : List Nat).length < MSG_CHANNEL_SIZE - 4 ∧
    (0 : Nat) ∉ ([65] : List Nat) ∧
    residue66.is_empty = true ∧
    (residue66.push [65]).2 = AsyncSink.Ready ∧
    (residue66.push [65]).1.pop.2 = some [65, 66] ∧
    (residue66.push [65]).1.pop.2 ≠ some [65] := by
  decide

/-- Claim C2 is refuted by the code: force-pushing the NUL-free payload
[65] (shorter than the effective capacity) onto residue67 does mark the
mailbox occupied, but peek then returns [65, 67] — which is not a prefix
of the payload [65] — because force_push writes no terminating NUL after
the payload and the residual byte 67 leaks in. -/
theorem force_push_peek_residue_leak :
    (residue67.force_push [65]).is_empty = false ∧
    (residue67.force_push [65]).peek = some [65, 67] ∧
    ¬ ∃ t : List Nat, [65, 67] ++ t = [65] := by
  refine ⟨by decide, by decide, ?_⟩
  rintro ⟨t, ht⟩
  simp at ht

/-- Claim C10: for every mailbox state, peek returns either nothing or a
payload of at most MSG_CHANNEL_SIZE - 4 = 1020 bytes: the scanned copy has
a zero forced at index 1020, so the NUL scan stops within the copy and the
returned length never exceeds 1020, whatever bytes the region holds. -/
theorem peek_length_le_effective_capacity (m : MSG_CHANNEL) (v : List Nat)
    (h : m.peek = some v) : v.length ≤ MSG_CHANNEL_SIZE - 4 := by
  have hocc : m.is_empty = false := occupied_of_peek_some h
  rw [peek_of_occupied hocc] at h
  have hv := Option.some.inj h
  rw [← hv]
  have e3 : MSG_CHANNEL_SIZE - 3 = 1020 + 1 := rfl
  have e4 : MSG_CHANNEL_SIZE - 4 = 1020 := rfl
  rw [e3, e4, List.range_succ, List.map_append]
  refine Nat.le_trans (takeWhile_append_length_le _ _) ?_
  have hmap : (([1020] : List Nat).map
      (fun i => if i = (1020:Nat) then 0 else m.buf (i + 1))) = [0] := by
    simp
  rw [hmap, show List.takeWhile (fun a => a != 0) ([0] : List Nat) = [] from rfl]
  simp

/-- Witness for C10 at a mailbox whose every byte is 65: peek returns the
maximal 1020-byte payload, within the bound. -/
theorem peek_length_le_effective_capacity_witness :
    (List.replicate 1020 (65:Nat)).length ≤ MSG_CHANNEL_SIZE - 4 :=
  peek_length_le_effective_capacity allSixtyFive
    (List.replicate 1020 65) (by decide)

/-- Claim C3: force-pushing a 2000-byte all-65 payload into a mailbox in
any prior state marks it occupied, and peek then returns exactly 1020
bytes of 65 — the effective-capacity truncation point. -/
theorem force_push_truncates_at_capacity (m : MSG_CHANNEL) :
    (m.force_push (List.replicate 2000 65)).is_empty = false ∧
    (m.force_push (List.replicate 2000 65)).peek =
      some (List.replicate 1020 65) := by
  refine ⟨force_push_occupied m _, ?_⟩
  rw [peek_of_occupied (force_push_occupied m _)]
  have hw : writtenSeq ((List.replicate 2000 (65:Nat)).take
      (min (List.replicate 2000 (65:Nat)).length (MSG_CHANNEL_SIZE - 2))) =
      List.replicate 1022 65 := by
    have hmin : min (List.replicate 2000 (65:Nat)).length
        (MSG_CHANNEL_SIZE - 2) = 1022 := by
      rw [List.length_replicate, show MSG_CHANNEL_SIZE - 2 = 1022 from rfl]
      omega
    rw [hmin, List.take_replicate]
    rw [show (1022:Nat) ⊓ 2000 = 1022 from by
      rw [Nat.min_def]; norm_num]
    apply writtenSeq_of_no_zero
    intro a ha
    rw [List.mem_replicate] at ha
    omega
  have hbuf : ∀ i : Nat, i < 1022 →
      (m.force_push (List.replicate 2000 65)).buf (i + 1) = 65 := by
    intro i hi
    show setByte
        (writeBytes (setByte m.buf 0 1) 1
          (writtenSeq ((List.replicate 2000 65).take
            (min (List.replicate 2000 65).length (MSG_CHANNEL_SIZE - 2)))))
        (MSG_CHANNEL_SIZE - 1) 0 (i + 1) = 65
    rw [hw, show MSG_CHANNEL_SIZE - 1 = 1023 from rfl,
      setByte_other _ _ _ _ (by omega)]
    rw [show i + 1 = 1 + i from by omega,
      writeBytes_mid _ _ _ _ (by simpa using hi)]
    exact getD_replicate_of_lt _ _ hi
  have hfront : (List.range 1020).map
      (fun i => if i = MSG_CHANNEL_SIZE - 4 then 0
        else (m.force_push (List.replicate 2000 65)).buf (i + 1)) =
      List.replicate 1020 65 := by
    rw [List.eq_replicate_iff]
    refine ⟨by rw [List.length_map, List.length_range], ?_⟩
    intro b hb
    rw [List.mem_map] at hb
    obtain ⟨i, hi, hbi⟩ := hb
    rw [List.mem_range] at hi
    rw [← hbi, if_neg (show ¬ i = MSG_CHANNEL_SIZE - 4 from by
      rw [show MSG_CHANNEL_SIZE - 4 = 1020 from rfl]; omega)]
    exact hbuf i (by omega)
  have hback : (([1020] : List Nat).map
      (fun i => if i = MSG_CHANNEL_SIZE - 4 then 0
        else (m.force_push (List.replicate 2000 65)).buf (i + 1))) = [0] := rfl
  have hlist : (List.range (MSG_CHANNEL_SIZE - 3)).map
      (fun i => if i = MSG_CHANNEL_SIZE - 4 then 0
        else (m.force_push (List.replicate 2000 65)).buf (i + 1)) =
      List.replicate 1020 65 ++ [0] := by
    rw [show MSG_CHANNEL_SIZE - 3 = 1020 + 1 from rfl, List.range_succ,
      List.map_append, hfront, hback]
  have hall : ∀ a ∈ List.replicate 1020 (65:Nat), (a != 0) = true := by
    intro a ha
    rw [List.mem_replicate] at ha
    rcases ha with ⟨_, rfl⟩
    decide
  rw [hlist, takeWhile_append_of_all _ _ hall,
    show List.takeWhile (fun a => a != 0) ([0] : List Nat) = [] from rfl,
    List.append_nil]

/-- Claim C6: when every channel before ci in a group's scan order is
empty and ci holds the message v, pull_control (and pull_status) over
that order returns (ci, v), consumes it (ci's mailbox becomes empty), and
leaves every other channel — in particular a later occupied channel cj —
byte-for-byte untouched and still occupied. -/
theorem pull_returns_first_occupied (s : SHARED_MEM)
    (pre rest : List MsgChannel) (ci cj : MsgChannel) (v : List Nat)
    (hpre : ∀ c ∈ pre, AppChannel.is_empty s c = true)
    (hv : AppChannel.peek s ci = some v)
    (hne : cj ≠ ci) (hcj : AppChannel.is_empty s cj = false) :
    (AppChannel.pull_control (pre ++ ci :: rest) s).2 = some (ci, v) ∧
    AppChannel.is_empty (AppChannel.pull_control (pre ++ ci :: rest) s).1
      ci = true ∧
    (AppChannel.pull_control (pre ++ ci :: rest) s).1.get_channel cj =
      s.get_channel cj ∧
    AppChannel.is_empty (AppChannel.pull_control (pre ++ ci :: rest) s).1
      cj = false ∧
    AppChannel.pull_status (pre ++ ci :: rest) s =
      AppChannel.pull_control (pre ++ ci :: rest) s := by
  have hmain : AppChannel.pullGroup s (pre ++ ci :: rest) =
      (s.set_channel ci ((s.get_channel ci).clear), some (ci, v)) := by
    rw [pullGroup_skip_front s pre (ci :: rest) hpre,
      pullGroup_cons_occ s ci rest v hv]
  have hctl : AppChannel.pull_control (pre ++ ci :: rest) s =
      (s.set_channel ci ((s.get_channel ci).clear), some (ci, v)) := hmain
  refine ⟨by rw [hctl], ?_, ?_, ?_, rfl⟩
  · show ((AppChannel.pull_control (pre ++ ci :: rest) s).1.get_channel
      ci).is_empty = true
    rw [hctl, get_set_self]
    exact clear_is_empty _
  · rw [hctl]
    exact get_set_other s ci cj _ hne
  · show ((AppChannel.pull_control (pre ++ ci :: rest) s).1.get_channel
      cj).is_empty = false
    rw [hctl, get_set_other s ci cj _ hne]
    exact hcj

/-- Witness for C6 on demoRegion with scan order [process-control-request,
graphics-request, trickle-down]: the first channel is empty, the two
occupied channels are graphics-request (earlier) and trickle-down (later);
the pull returns the graphics-request message, empties it, and leaves
trickle-down untouched and occupied. -/
theorem pull_returns_first_occupied_witness :
    (AppChannel.pull_control
      ([MsgChannel.ProcessControlRequest] ++
        MsgChannel.GraphicsRequest :: [MsgChannel.TrickleDown])
      demoRegion).2 = some (MsgChannel.GraphicsRequest, []) ∧
    AppChannel.is_empty
      (AppChannel.pull_control
        ([MsgChannel.ProcessControlRequest] ++
          MsgChannel.GraphicsRequest :: [MsgChannel.TrickleDown])
        demoRegion).1 MsgChannel.GraphicsRequest = true ∧
    (AppChannel.pull_control
      ([MsgChannel.ProcessControlRequest] ++
        MsgChannel.GraphicsRequest :: [MsgChannel.TrickleDown])
      demoRegion).1.get_channel MsgChannel.TrickleDown =
      demoRegion.get_channel MsgChannel.TrickleDown ∧
    AppChannel.is_empty
      (AppChannel.pull_control
        ([MsgChannel.ProcessControlRequest] ++
          MsgChannel.GraphicsRequest :: [MsgChannel.TrickleDown])
        demoRegion).1 MsgChannel.TrickleDown = false ∧
    AppChannel.pull_status
      ([MsgChannel.ProcessControlRequest] ++
        MsgChannel.GraphicsRequest :: [MsgChannel.TrickleDown]) demoRegion =
    AppChannel.pull_control
      ([MsgChannel.ProcessControlRequest] ++
        MsgChannel.GraphicsRequest :: [MsgChannel.TrickleDown]) demoRegion :=
  pull_returns_first_occupied demoRegion [MsgChannel.ProcessControlRequest]
    [MsgChannel.TrickleDown] MsgChannel.GraphicsRequest MsgChannel.TrickleDown
    [] (by decide) (by decide) (by decide) (by decide)

/-- Claim C7: when the scan finds an occupied mailbox whose bytes v the
external decoder rejects (dec c v = none), the pull-and-decode surfaces a
distinct protocol-violation result carrying the malformed channel and
bytes, and never reports a normal result — the malformed message is not
silently dropped. -/
theorem pull_decode_failure_signalled {Msg : Type}
    (dec : MsgChannel → List Nat → Option Msg) (order : List MsgChannel)
    (s s2 : SHARED_MEM) (c : MsgChannel) (v : List Nat)
    (hpull : AppChannel.pullGroup s order = (s2, some (c, v)))
    (hdec : dec c v = none) :
    (AppChannel.pullDecoded dec order s).2 = Sum.inr (c, v) ∧
    ∀ r : Option (MsgChannel × Msg),
      (AppChannel.pullDecoded dec order s).2 ≠ Sum.inl r := by
  have h1 : AppChannel.pullDecoded dec order s = (s2, Sum.inr (c, v)) := by
    simp only [AppChannel.pullDecoded, hpull, hdec]
  refine ⟨by rw [h1], ?_⟩
  intro r hr
  rw [h1] at hr
  exact Sum.noConfusion hr

/-- Witness for C7: an always-failing decoder over the singleton order
[graphics-request] on demoRegion, whose graphics-request mailbox is
occupied with the zero-length payload. -/
theorem pull_decode_failure_signalled_witness :
    (AppChannel.pullDecoded (fun _ _ => (none : Option Nat))
      [MsgChannel.GraphicsRequest] demoRegion).2 =
      Sum.inr (MsgChannel.GraphicsRequest, []) ∧
    (AppChannel.pullDecoded (fun _ _ => (none : Option Nat))
      [MsgChannel.GraphicsRequest] demoRegion).2 ≠
      Sum.inl (none : Option (MsgChannel × Nat)) :=
  ⟨(pull_decode_failure_signalled (fun _ _ => none)
      [MsgChannel.GraphicsRequest] demoRegion
      (demoRegion.set_channel MsgChannel.GraphicsRequest
        ((demoRegion.get_channel MsgChannel.GraphicsRequest).clear))
      MsgChannel.GraphicsRequest []
      (pullGroup_cons_occ demoRegion MsgChannel.GraphicsRequest [] []
        (by decide)) rfl).1,
   (pull_decode_failure_signalled (fun _ _ => none)
      [MsgChannel.GraphicsRequest] demoRegion
      (demoRegion.set_channel MsgChannel.GraphicsRequest
        ((demoRegion.get_channel MsgChannel.GraphicsRequest).clear))
      MsgChannel.GraphicsRequest []
      (pullGroup_cons_occ demoRegion MsgChannel.GraphicsRequest [] []
        (by decide)) rfl).2 none⟩

/-- Claim C8: the byte-level effect of MmapAppChannel::new on the backing
file — a file at least SHARED_MEM_SIZE = 8192 bytes long is left
untouched (zero bytes written); an absent or smaller file gets
SHARED_MEM_SIZE zero bytes written from offset 0, so the resulting file is
exactly SHARED_MEM_SIZE zero bytes and every one of the eight mailboxes
decoded from it is empty. -/
theorem mmap_new_preserves_or_zeroes (c1 c2 : List Nat)
    (h1 : SHARED_MEM_SIZE ≤ c1.length) (h2 : c2.length < SHARED_MEM_SIZE) :
    mmapNewWriteCount (some c1) = 0 ∧
    mmapNewFileBytes (some c1) = c1 ∧
    mmapNewWriteCount (some c2) = SHARED_MEM_SIZE ∧
    mmapNewFileBytes (some c2) = List.replicate SHARED_MEM_SIZE 0 ∧
    mmapNewWriteCount none = SHARED_MEM_SIZE ∧
    mmapNewFileBytes none = List.replicate SHARED_MEM_SIZE 0 ∧
    (mmapNewFileBytes none).length = SHARED_MEM_SIZE ∧
    ∀ c, AppChannel.is_empty (regionOfBytes (mmapNewFileBytes none)) c =
      true := by
  have hz : mmapNewFileBytes none = List.replicate SHARED_MEM_SIZE 0 := by
    show (if ([] : List Nat).length < SHARED_MEM_SIZE then
      List.replicate SHARED_MEM_SIZE 0 ++ ([] : List Nat).drop SHARED_MEM_SIZE
      else []) = List.replicate SHARED_MEM_SIZE 0
    rw [if_pos (show ([] : List Nat).length < SHARED_MEM_SIZE from by
        rw [List.length_nil]; exact Nat.pos_of_ne_zero (by decide)),
      List.drop_nil, List.append_nil]
  refine ⟨?_, ?_, ?_, ?_, ?_, hz, by rw [hz, List.length_replicate], ?_⟩
  · show (if c1.length < SHARED_MEM_SIZE then SHARED_MEM_SIZE else 0) = 0
    rw [if_neg (Nat.not_lt.mpr h1)]
  · show (if c1.length < SHARED_MEM_SIZE then
      List.replicate SHARED_MEM_SIZE 0 ++ c1.drop SHARED_MEM_SIZE else c1) =
      c1
    rw [if_neg (Nat.not_lt.mpr h1)]
  · show (if c2.length < SHARED_MEM_SIZE then SHARED_MEM_SIZE else 0) =
      SHARED_MEM_SIZE
    rw [if_pos h2]
  · show (if c2.length < SHARED_MEM_SIZE then
      List.replicate SHARED_MEM_SIZE 0 ++ c2.drop SHARED_MEM_SIZE else c2) =
      List.replicate SHARED_MEM_SIZE 0
    rw [if_pos h2, List.drop_eq_nil_of_le (Nat.le_of_lt h2), List.append_nil]
  · show (if ([] : List Nat).length < SHARED_MEM_SIZE then SHARED_MEM_SIZE
      else 0) = SHARED_MEM_SIZE
    rw [if_pos (show ([] : List Nat).length < SHARED_MEM_SIZE from by
      rw [List.length_nil]; exact Nat.pos_of_ne_zero (by decide))]
  · intro c
    rw [hz]
    show ((regionOfBytes (List.replicate SHARED_MEM_SIZE 0)).get_channel
      c).is_empty = true
    rw [is_empty_true_iff, regionOfBytes_buf_zero]
    exact getD_zero_replicate _ _

/-- Witness for C8 at a concrete large file (8192 bytes of 1) and a
concrete small file ([5]). -/
theorem mmap_new_preserves_or_zeroes_witness :
    mmapNewWriteCount (some (List.replicate SHARED_MEM_SIZE 1)) = 0 ∧
    mmapNewFileBytes (some (List.replicate SHARED_MEM_SIZE 1)) =
      List.replicate SHARED_MEM_SIZE 1 ∧
    mmapNewWriteCount (some [5]) = SHARED_MEM_SIZE ∧
    mmapNewFileBytes (some [5]) = List.replicate SHARED_MEM_SIZE 0 ∧
    mmapNewWriteCount none = SHARED_MEM_SIZE ∧
    mmapNewFileBytes none = List.replicate SHARED_MEM_SIZE 0 ∧
    (mmapNewFileBytes none).length = SHARED_MEM_SIZE ∧
    AppChannel.is_empty (regionOfBytes (mmapNewFileBytes none))
      MsgChannel.TrickleUp = true := by
  have h := mmap_new_preserves_or_zeroes (List.replicate SHARED_MEM_SIZE 1)
    [5] (by rw [List.length_replicate]) (by decide)
  exact ⟨h.1, h.2.1, h.2.2.1, h.2.2.2.1, h.2.2.2.2.1, h.2.2.2.2.2.1,
    h.2.2.2.2.2.2.1, h.2.2.2.2.2.2.2 MsgChannel.TrickleUp⟩

end BoincShmem
